import Mathlib

/-!
Shallow embedding of the core game state machine of the Intelligent Qube
clone (src/src/game.js, class Game, operative variant at the top of the
file, together with src/src/cube.js, class Cube).

Modelling conventions:
- JS numbers are modelled as rationals; every arithmetic operation the
  embedded code performs (additions of 0.08, halving of integer counts,
  Math.floor, Math.round) is exact on the values the game produces, so no
  floating-point rounding is modelled.
- Math.floor is the floor on rationals; Math.round rounds half toward
  positive infinity, jsRound below.
- A Cube object is its kind ('normal' | 'advantage' | 'forbidden') and the
  position of its mesh; membership in the Game.rollingCubes set is the
  Boolean field rolling, and the roll animation's captured target z is the
  field targetZ.  The y coordinate is constant until the purely visual
  falling animation and is not modelled.
- The string keys "x,z" of the markedCells and advantageSpots Maps are
  modelled as pairs of rationals: JS number-to-string printing is injective
  on the produced values, so string equality is pair equality.  The Map
  values (marker meshes) are visual only; a Map becomes its list of keys in
  insertion order, Map.set is mapSet, Map.delete is List.erase.
- The renderer (THREE.js scene, meshes, lights, particle effects, UI DOM
  nodes) is out of scope; only state the game logic reads back is kept.
  Game.playerPosition duplicates Game.player.position and is never read;
  the single modelled position playerX, playerZ is player.position.
  The unused Game.advantageCubes, Game.forbiddenCubes arrays, cubeSpeed,
  playerMoveTimer, playerMoveInterval and lastPlayerMove are dropped.
- Math.random() draws are an explicit input stream r : Nat -> Rat; the n-th
  cube generated by a wave consumes draw r n.
-/

namespace IQ

/-- Cube kinds, from cube.js: 'normal', 'advantage' or 'forbidden'. -/
inductive CubeType
  | normal
  | advantage
  | forbidden
deriving DecidableEq, Repr

/-- A cube (cube.js class Cube): kind, mesh position (x, z), whether it is
in the rollingCubes set, and the roll animation's target z. -/
structure Cube where
  type : CubeType
  x : ℚ
  z : ℚ
  rolling : Bool
  targetZ : ℚ
deriving DecidableEq, Repr

/-- The held movement keys read by Game.updatePlayer. -/
structure Keys where
  w : Bool
  a : Bool
  s : Bool
  d : Bool
  arrowup : Bool
  arrowdown : Bool
  arrowleft : Bool
  arrowright : Bool
deriving DecidableEq, Repr

/-- The game-logic state of the Game object (game.js constructor). -/
@[ext]
structure GameState where
  level : ℕ
  score : ℤ
  rows : ℤ
  cols : ℕ
  playerX : ℚ
  playerZ : ℚ
  markedCells : List (ℚ × ℚ)
  advantageSpots : List (ℚ × ℚ)
  cubes : List Cube
  moveTimer : ℕ
  isGameOver : Bool
  currentWave : ℕ
deriving DecidableEq, Repr

/-- this.playerSpeed = 0.08. -/
def playerSpeed : ℚ := 8/100

/-- this.moveInterval = 180. -/
def moveInterval : ℕ := 180

/-- this.wavesPerLevel = 4. -/
def wavesPerLevel : ℕ := 4

/-- JS Math.round: round half toward positive infinity. -/
def jsRound (q : ℚ) : ℤ := ⌊q + 1/2⌋

/-- Math.round(v - 0.5) + 0.5: the 0.5-aligned grid cell centre of a
coordinate, used by updatePlayer and triggerAllAdvantageSpots. -/
def cellQ (v : ℚ) : ℚ := (jsRound (v - 1/2) : ℚ) + 1/2

/-- Math.floor(pos.x) + 0.5 paired with Math.floor(pos.z): the key a cube's
position maps to in toggleMark's activation (game.js:398). -/
def markKey (c : Cube) : ℚ × ℚ := ((⌊c.x⌋ : ℚ) + 1/2, (⌊c.z⌋ : ℚ))

/-- The cell recorded when marking: Math.floor(player.x) + 0.5 paired with
Math.floor(player.z) (game.js:436-440). -/
def playerMarkCell (s : GameState) : ℚ × ℚ :=
  ((⌊s.playerX⌋ : ℚ) + 1/2, (⌊s.playerZ⌋ : ℚ))

/-- JS Map.set on the modelled key list: keep insertion order if the key is
present, else append. -/
def mapSet (key : ℚ × ℚ) (l : List (ℚ × ℚ)) : List (ℚ × ℚ) :=
  if key ∈ l then l else l ++ [key]

/-- Game.handlePlayerDeath: its game-state effect is isGameOver = true (the
particle effect and the DOM overlay are visual). -/
def handlePlayerDeath (s : GameState) : GameState :=
  { s with isGameOver := true }

/-- Game.handleForbiddenCube (game.js:683-710): score -= 1000, rows -= 1,
stage geometry update (visual), then game over when rows < 5. -/
def handleForbiddenCube (s : GameState) : GameState :=
  let s := { s with score := s.score - 1000, rows := s.rows - 1 }
  if s.rows < 5 then handlePlayerDeath { s with isGameOver := true } else s

/-- The x displacement of the held keys (game.js:227-232). -/
def movedX (k : Keys) (x : ℚ) : ℚ :=
  let x := if k.a || k.arrowleft then x - playerSpeed else x
  if k.d || k.arrowright then x + playerSpeed else x

/-- The z displacement of the held keys (game.js:221-226). -/
def movedZ (k : Keys) (z : ℚ) : ℚ :=
  let z := if k.w || k.arrowup then z - playerSpeed else z
  if k.s || k.arrowdown then z + playerSpeed else z

/-- Clamp of the x coordinate to the stage (game.js:235). -/
def clampX (s : GameState) (x : ℚ) : ℚ :=
  max (-(s.cols : ℚ)/2 + 1/2) (min ((s.cols : ℚ)/2 - 1/2) x)

/-- Clamp of the z coordinate to the stage (game.js:236). -/
def clampZ (s : GameState) (z : ℚ) : ℚ :=
  max (-(s.rows : ℚ)/2 + 1/2) (min ((s.rows : ℚ)/2 - 1/2) z)

/-- game.js:239-251: the destination cell is occupied by a non-rolling
cube. -/
def wouldCollide (s : GameState) (nx nz : ℚ) : Bool :=
  s.cubes.any fun c =>
    !c.rolling && decide (cellQ nx = cellQ c.x ∧ cellQ nz = cellQ c.z)

/-- game.js:264-271: some rolling cube occupies the player's cell. -/
def isPlayerCrushed (s : GameState) : Bool :=
  s.cubes.any fun c =>
    c.rolling && decide (cellQ c.x = cellQ s.playerX ∧ cellQ c.z = cellQ s.playerZ)

/-- The movement part of Game.updatePlayer (game.js:215-262): displace by
the held keys, clamp to the stage, reject the move if the destination cell
holds a non-rolling cube. -/
def movePhase (s : GameState) (k : Keys) : GameState :=
  let nx := clampX s (movedX k s.playerX)
  let nz := clampZ s (movedZ k s.playerZ)
  if wouldCollide s nx nz then s else { s with playerX := nx, playerZ := nz }

/-- Game.updatePlayer (game.js:212-276): no-op when the game is over, else
move, then die when a rolling cube occupies the player's cell. -/
def updatePlayer (s : GameState) (k : Keys) : GameState :=
  if s.isGameOver then s
  else
    let s1 := movePhase s k
    if isPlayerCrushed s1 then handlePlayerDeath s1 else s1

/-- Game.getRandomCubeType (game.js:376-381) applied to one draw. -/
def getRandomCubeType (q : ℚ) : CubeType :=
  if q < 7/10 then CubeType.normal
  else if q < 85/100 then CubeType.advantage
  else CubeType.forbidden

/-- The cube Game.generateWave (game.js:362-372) creates at row i, column
j, consuming draw r (i * cols + j). -/
def waveCube (s : GameState) (r : ℕ → ℚ) (i j : ℕ) : Cube :=
  { type := getRandomCubeType (r (i * s.cols + j))
    x := (j : ℚ) - ((s.cols / 2 : ℕ) : ℚ) + 1/2
    z := -(s.rows : ℚ)/2 - (i : ℚ) - 1/2
    rolling := false
    targetZ := 0 }

/-- Game.generateWave (game.js:348-374): replace the cube list with
min(3 + level, 14) rows of cols cubes of random kinds. -/
def generateWave (s : GameState) (r : ℕ → ℚ) : GameState :=
  { s with cubes :=
      (List.range (min (3 + s.level) 14)).flatMap fun i =>
        (List.range s.cols).map fun j => waveCube s r i j }

/-- Game.startLevel (game.js:343-346). -/
def startLevel (s : GameState) (r : ℕ → ℚ) : GameState :=
  generateWave { s with currentWave := 0 } r

/-- One iteration of the cube scan in toggleMark's activation branch
(game.js:396-414): the accumulator is the game state, pointsGained and
cubesCleared.  A matched forbidden cube calls handleForbiddenCube at once;
a matched advantage cube registers the 3x3 area keyed by its aligned cell
(equal to the marked key); every matched cube is pushed onto cubesCleared. -/
def actStep (key : ℚ × ℚ) (acc : GameState × ℤ × List Cube) (c : Cube) :
    GameState × ℤ × List Cube :=
  let st := acc.1
  let pts := acc.2.1
  let cleared := acc.2.2
  if markKey c = key then
    if c.type = CubeType.forbidden then
      (handleForbiddenCube st, pts, cleared ++ [c])
    else
      let st := if c.type = CubeType.advantage
        then { st with advantageSpots := mapSet (markKey c) st.advantageSpots }
        else st
      (st, pts + 100, cleared ++ [c])
  else
    (st, pts, cleared)

/-- Game.toggleMark (game.js:383-480).  With a mark present (only one is
ever kept), activate it: scan the cubes, remove the cleared ones, add the
points when positive, clear the mark.  Without one, mark the cell under the
player. -/
def toggleMark (s : GameState) : GameState :=
  match s.markedCells with
  | key :: _ =>
      let res := s.cubes.foldl (actStep key) (s, 0, [])
      let st := res.1
      let st := { st with cubes := st.cubes.filter fun c => !decide (c ∈ res.2.2) }
      let st := if 0 < res.2.1 then { st with score := st.score + res.2.1 } else st
      { st with markedCells := [] }
  | [] =>
      { s with markedCells := [playerMarkCell s] }

/-- game.js:497-513: the cube's rounded cell is within Chebyshev distance 1
of the area's centre. -/
def chebHit (key : ℚ × ℚ) (c : Cube) : Bool :=
  decide (|cellQ c.x - key.1| ≤ 1 ∧ |cellQ c.z - key.2| ≤ 1)

/-- One iteration of the spot loop in Game.triggerAllAdvantageSpots
(game.js:489-551): count the matched cubes (forbidden apart), apply the
forbidden penalty once per matched forbidden cube, remove the matched
cubes, discard the spot, then add the points when positive. -/
def triggerSpot (s : GameState) (key : ℚ × ℚ) : GameState :=
  let matched := s.cubes.filter (chebHit key)
  let fc := (matched.filter fun c => decide (c.type = CubeType.forbidden)).length
  let pts : ℤ := 200 * ((matched.filter fun c => !decide (c.type = CubeType.forbidden)).length : ℤ)
  let s1 := handleForbiddenCube^[fc] s
  let s2 := { s1 with cubes := s1.cubes.filter fun c => !decide (c ∈ matched),
                      advantageSpots := s1.advantageSpots.erase key }
  if 0 < pts then { s2 with score := s2.score + pts } else s2

/-- Game.triggerAllAdvantageSpots (game.js:482-552): return at once with no
pending spot, else process the snapshot of the pending keys in order. -/
def triggerAllAdvantageSpots (s : GameState) : GameState :=
  if s.advantageSpots.isEmpty then s
  else s.advantageSpots.foldl triggerSpot s

/-- game.js:796-805: a settled cube starts rolling toward
Math.round(z) + 1; its mesh stays at the old cell until the animation
settles it. -/
def rollCube (c : Cube) : Cube :=
  if !c.rolling then { c with rolling := true, targetZ := (jsRound c.z : ℚ) + 1 }
  else c

/-- Game.updateCubes (game.js:789-856): every moveInterval-th frame, start
rolling the settled cubes, drop the cubes past the near edge, and when the
wave emptied advance the wave counter, regenerating at the same level or
advancing the level after wavesPerLevel waves. -/
def updateCubes (s : GameState) (r : ℕ → ℚ) : GameState :=
  let s0 := { s with moveTimer := s.moveTimer + 1 }
  if moveInterval ≤ s0.moveTimer then
    let s1 := { s0 with moveTimer := 0 }
    let s2 := { s1 with cubes := s1.cubes.map rollCube }
    let s3 := { s2 with cubes := s2.cubes.filter fun c => !decide ((s2.rows : ℚ)/2 < c.z) }
    if s3.cubes.isEmpty then
      let s4 := { s3 with currentWave := s3.currentWave + 1 }
      if s4.currentWave < wavesPerLevel then generateWave s4 r
      else startLevel { s4 with level := s4.level + 1 } r
    else s3
  else s0

/-- Completion of one cube's rolling animation (the closure in
game.js:808-832): snap to the target cell and leave the rollingCubes set.
The past-the-edge check only starts the visual falling animation. -/
def settleCube (s : GameState) (i : ℕ) : GameState :=
  match s.cubes[i]? with
  | some c =>
      if c.rolling then
        { s with cubes := s.cubes.set i { c with z := c.targetZ, rolling := false } }
      else s
  | none => s

/-- One frame of Game.animate (game.js:858-865): per-tick updates run only
while the game is not over. -/
def tick (s : GameState) (k : Keys) (r : ℕ → ℚ) : GameState :=
  if s.isGameOver then s else updateCubes (updatePlayer s k) r

/-- The game state the constructor (game.js:29-51) builds before
startLevel runs: 25 rows, 8 columns, player at (0.5, rows/2 - 1.5). -/
def initBase : GameState :=
  { level := 1, score := 0, rows := 25, cols := 8,
    playerX := 1/2, playerZ := 25/2 - 3/2,
    markedCells := [], advantageSpots := [], cubes := [],
    moveTimer := 0, isGameOver := false, currentWave := 0 }

/-- The state after the constructor: startLevel with the first wave's
draws. -/
def initState (r : ℕ → ℚ) : GameState := startLevel initBase r

/-- The event-level transitions of the running game: an animate frame, a
space keydown (toggleMark), a backspace keydown (triggerAllAdvantageSpots,
game.js:325-329), or the completion of a rolling animation. -/
inductive Step : GameState → GameState → Prop
  | tick (s : GameState) (k : Keys) (r : ℕ → ℚ) : Step s (tick s k r)
  | mark (s : GameState) : Step s (toggleMark s)
  | trigger (s : GameState) : Step s (triggerAllAdvantageSpots s)
  | settle (s : GameState) (i : ℕ) : Step s (settleCube s i)

/-- The states the game can reach from its constructor. -/
inductive Reachable : GameState → Prop
  | init (r : ℕ → ℚ) : Reachable (initState r)
  | step {s t : GameState} : Reachable s → Step s t → Reachable t

/-- Number of cubes a mark activation at key matches whose kind is
forbidden. -/
def fMark (s : GameState) (key : ℚ × ℚ) : ℕ :=
  (s.cubes.filter fun c => decide (markKey c = key) && decide (c.type = CubeType.forbidden)).length

/-- Number of cubes a mark activation at key matches whose kind is not
forbidden. -/
def nMark (s : GameState) (key : ℚ × ℚ) : ℕ :=
  (s.cubes.filter fun c => decide (markKey c = key) && !decide (c.type = CubeType.forbidden)).length

/-- Number of forbidden cubes in the 3x3 area centred at key. -/
def fCheb (s : GameState) (key : ℚ × ℚ) : ℕ :=
  ((s.cubes.filter (chebHit key)).filter fun c => decide (c.type = CubeType.forbidden)).length

/-- Number of non-forbidden cubes in the 3x3 area centred at key. -/
def nCheb (s : GameState) (key : ℚ × ℚ) : ℕ :=
  ((s.cubes.filter (chebHit key)).filter fun c => !decide (c.type = CubeType.forbidden)).length

/-- The cube list after the movement part of an updateCubes tick: the
settled cubes start rolling and the cubes past the near edge are
dropped (game.js:795-842). -/
def survivors (s : GameState) : List Cube :=
  (s.cubes.map rollCube).filter fun c => !decide ((s.rows : ℚ)/2 < c.z)

/-- No movement key held. -/
def keysNone : Keys :=
  { w := false, a := false, s := false, d := false,
    arrowup := false, arrowdown := false, arrowleft := false, arrowright := false }

/-- Only the right-movement key held. -/
def keysRight : Keys := { keysNone with d := true }

/-- A constant draw stream for concrete runs. -/
def drawsZero : ℕ → ℚ := fun _ => 0

/-- A mid-game test state: the player stands at (0.2, 5.4) with no mark,
and one forbidden cube sits on the cell the player would mark. -/
def exMark : GameState :=
  { level := 1, score := 0, rows := 25, cols := 8,
    playerX := 1/5, playerZ := 27/5,
    markedCells := [], advantageSpots := [],
    cubes := [{ type := CubeType.forbidden, x := 1/2, z := 11/2, rolling := false, targetZ := 0 }],
    moveTimer := 0, isGameOver := false, currentWave := 0 }

/-- exMark after the game ended, with the forbidden cube's cell already
marked. -/
def exOverMark : GameState := { exMark with isGameOver := true, markedCells := [(1/2, 5)] }

/-- A game-over state with one pending advantage area and one normal cube
inside it. -/
def exOverSpot : GameState :=
  { level := 1, score := 0, rows := 25, cols := 8,
    playerX := 1/5, playerZ := 27/5,
    markedCells := [], advantageSpots := [(1/2, 5)],
    cubes := [{ type := CubeType.normal, x := 1/2, z := 9/2, rolling := false, targetZ := 0 }],
    moveTimer := 0, isGameOver := true, currentWave := 0 }

/-- exMark with the stage already shrunk to the 5-row floor. -/
def exRows5 : GameState := { exMark with rows := 5 }

/-- A state with a rolling cube on the player's cell. -/
def exCrush : GameState :=
  { level := 1, score := 0, rows := 25, cols := 8,
    playerX := 1/2, playerZ := 11/2,
    markedCells := [], advantageSpots := [],
    cubes := [{ type := CubeType.normal, x := 1/2, z := 11/2, rolling := true, targetZ := 13/2 }],
    moveTimer := 0, isGameOver := false, currentWave := 0 }

/-- A state where moving right would enter the cell of a settled cube. -/
def exColl : GameState :=
  { level := 1, score := 0, rows := 25, cols := 8,
    playerX := 49/50, playerZ := 11/2,
    markedCells := [], advantageSpots := [],
    cubes := [{ type := CubeType.normal, x := 3/2, z := 11/2, rolling := false, targetZ := 0 }],
    moveTimer := 0, isGameOver := false, currentWave := 0 }

/-- A state one frame before a movement tick whose wave has emptied. -/
def exWaveEmpty : GameState := { exMark with cubes := [], moveTimer := 179 }

/-- The rows-floor invariant the game maintains: while the game is not
over, at least 5 rows remain. -/
def RowsOk (s : GameState) : Prop := s.isGameOver = false → 5 ≤ s.rows

theorem normal_ne_forbidden : ¬ CubeType.normal = CubeType.forbidden := by decide

theorem cellQ_eq (v : ℚ) : cellQ v = (⌊v⌋ : ℚ) + 1/2 := by
  have h : v - 1/2 + 1/2 = v := by ring
  simp [cellQ, jsRound, h]

theorem hfc_score (s : GameState) : (handleForbiddenCube s).score = s.score - 1000 := by
  simp only [handleForbiddenCube, handlePlayerDeath]
  split <;> rfl

theorem hfc_rows (s : GameState) : (handleForbiddenCube s).rows = s.rows - 1 := by
  simp only [handleForbiddenCube, handlePlayerDeath]
  split <;> rfl

theorem hfc_frame (s : GameState) :
    (handleForbiddenCube s).cubes = s.cubes ∧
    (handleForbiddenCube s).markedCells = s.markedCells ∧
    (handleForbiddenCube s).advantageSpots = s.advantageSpots ∧
    (handleForbiddenCube s).level = s.level ∧
    (handleForbiddenCube s).cols = s.cols ∧
    (handleForbiddenCube s).playerX = s.playerX ∧
    (handleForbiddenCube s).playerZ = s.playerZ ∧
    (handleForbiddenCube s).moveTimer = s.moveTimer ∧
    (handleForbiddenCube s).currentWave = s.currentWave := by
  simp only [handleForbiddenCube, handlePlayerDeath]
  split <;> simp

theorem hfc_gameOver (s : GameState) :
    (handleForbiddenCube s).isGameOver = (s.isGameOver || decide (s.rows - 1 < 5)) := by
  simp only [handleForbiddenCube, handlePlayerDeath]
  split
  · next h => simp at h ⊢; omega
  · next h => simp at h ⊢; omega

theorem hfc_rowsOk (s : GameState) : RowsOk (handleForbiddenCube s) := by
  intro hgo
  rw [hfc_gameOver] at hgo
  rw [hfc_rows]
  simp at hgo
  omega

theorem hfc_go_mono (s : GameState) (h : s.isGameOver = true) :
    (handleForbiddenCube s).isGameOver = true := by
  rw [hfc_gameOver, h]; simp

theorem hfc_goTrue (s : GameState) :
    handleForbiddenCube { s with isGameOver := true }
      = { handleForbiddenCube s with isGameOver := true } := by
  simp only [handleForbiddenCube, handlePlayerDeath]
  split <;> rfl

theorem hfcIter_score (n : ℕ) (s : GameState) :
    (handleForbiddenCube^[n] s).score = s.score - 1000 * n := by
  induction n generalizing s with
  | zero => simp
  | succ m ih =>
    rw [Function.iterate_succ_apply, ih, hfc_score]
    push_cast
    ring

theorem hfcIter_rows (n : ℕ) (s : GameState) :
    (handleForbiddenCube^[n] s).rows = s.rows - n := by
  induction n generalizing s with
  | zero => simp
  | succ m ih =>
    rw [Function.iterate_succ_apply, ih, hfc_rows]
    push_cast
    ring

theorem hfcIter_frame (n : ℕ) (s : GameState) :
    (handleForbiddenCube^[n] s).cubes = s.cubes ∧
    (handleForbiddenCube^[n] s).markedCells = s.markedCells ∧
    (handleForbiddenCube^[n] s).advantageSpots = s.advantageSpots ∧
    (handleForbiddenCube^[n] s).level = s.level ∧
    (handleForbiddenCube^[n] s).cols = s.cols ∧
    (handleForbiddenCube^[n] s).playerX = s.playerX ∧
    (handleForbiddenCube^[n] s).playerZ = s.playerZ ∧
    (handleForbiddenCube^[n] s).moveTimer = s.moveTimer ∧
    (handleForbiddenCube^[n] s).currentWave = s.currentWave := by
  induction n generalizing s with
  | zero => simp
  | succ m ih =>
    rw [Function.iterate_succ_apply]
    have h1 := ih (handleForbiddenCube s)
    have h2 := hfc_frame s
    exact ⟨h1.1.trans h2.1, h1.2.1.trans h2.2.1, h1.2.2.1.trans h2.2.2.1,
      h1.2.2.2.1.trans h2.2.2.2.1, h1.2.2.2.2.1.trans h2.2.2.2.2.1,
      h1.2.2.2.2.2.1.trans h2.2.2.2.2.2.1, h1.2.2.2.2.2.2.1.trans h2.2.2.2.2.2.2.1,
      h1.2.2.2.2.2.2.2.1.trans h2.2.2.2.2.2.2.2.1,
      h1.2.2.2.2.2.2.2.2.trans h2.2.2.2.2.2.2.2.2⟩

theorem hfcIter_rowsOk (n : ℕ) (s : GameState) (h : RowsOk s) :
    RowsOk (handleForbiddenCube^[n] s) := by
  cases n with
  | zero => simpa using h
  | succ m =>
    rw [Function.iterate_succ_apply']
    exact hfc_rowsOk _

theorem hfcIter_go_mono (n : ℕ) (s : GameState) (h : s.isGameOver = true) :
    (handleForbiddenCube^[n] s).isGameOver = true := by
  induction n generalizing s with
  | zero => simpa using h
  | succ m ih =>
    rw [Function.iterate_succ_apply]
    exact ih _ (hfc_go_mono _ h)

theorem hfcIter_goTrue (n : ℕ) (s : GameState) :
    handleForbiddenCube^[n] { s with isGameOver := true }
      = { handleForbiddenCube^[n] s with isGameOver := true } := by
  induction n generalizing s with
  | zero => simp
  | succ m ih =>
    rw [Function.iterate_succ_apply, Function.iterate_succ_apply, hfc_goTrue, ih]

theorem mapSet_idem (key : ℚ × ℚ) (l : List (ℚ × ℚ)) :
    mapSet key (mapSet key l) = mapSet key l := by
  simp only [mapSet]
  split
  · next h => simp [h]
  · next h => simp

theorem actStep_match_forb (key : ℚ × ℚ) (st : GameState) (p : ℤ) (cl : List Cube)
    (c : Cube) (h1 : markKey c = key) (h2 : c.type = CubeType.forbidden) :
    actStep key (st, p, cl) c = (handleForbiddenCube st, p, cl ++ [c]) := by
  simp [actStep, h1, h2]

theorem actStep_match_adv (key : ℚ × ℚ) (st : GameState) (p : ℤ) (cl : List Cube)
    (c : Cube) (h1 : markKey c = key) (h2 : c.type = CubeType.advantage) :
    actStep key (st, p, cl) c
      = ({ st with advantageSpots := mapSet key st.advantageSpots }, p + 100, cl ++ [c]) := by
  simp [actStep, h1, h2]

theorem actStep_match_norm (key : ℚ × ℚ) (st : GameState) (p : ℤ) (cl : List Cube)
    (c : Cube) (h1 : markKey c = key) (h2 : c.type = CubeType.normal) :
    actStep key (st, p, cl) c = (st, p + 100, cl ++ [c]) := by
  simp [actStep, h1, h2]

theorem actStep_nomatch (key : ℚ × ℚ) (st : GameState) (p : ℤ) (cl : List Cube)
    (c : Cube) (h1 : ¬ markKey c = key) :
    actStep key (st, p, cl) c = (st, p, cl) := by
  simp [actStep, h1]

theorem afold_frame (key : ℚ × ℚ) (cs : List Cube) (st : GameState) (p : ℤ) (cl : List Cube) :
    (cs.foldl (actStep key) (st, p, cl)).1.cubes = st.cubes ∧
    (cs.foldl (actStep key) (st, p, cl)).1.markedCells = st.markedCells ∧
    (cs.foldl (actStep key) (st, p, cl)).1.level = st.level ∧
    (cs.foldl (actStep key) (st, p, cl)).1.cols = st.cols ∧
    (cs.foldl (actStep key) (st, p, cl)).1.playerX = st.playerX ∧
    (cs.foldl (actStep key) (st, p, cl)).1.playerZ = st.playerZ ∧
    (cs.foldl (actStep key) (st, p, cl)).1.moveTimer = st.moveTimer ∧
    (cs.foldl (actStep key) (st, p, cl)).1.currentWave = st.currentWave := by
  induction cs generalizing st p cl with
  | nil => simp
  | cons c cs ih =>
    rw [List.foldl_cons]
    by_cases h1 : markKey c = key
    · cases h2 : c.type
      · rw [actStep_match_norm key st p cl c h1 h2]
        exact ih st (p + 100) (cl ++ [c])
      · rw [actStep_match_adv key st p cl c h1 h2]
        exact ih _ (p + 100) (cl ++ [c])
      · rw [actStep_match_forb key st p cl c h1 h2]
        have h3 := ih (handleForbiddenCube st) p (cl ++ [c])
        have h4 := hfc_frame st
        exact ⟨h3.1.trans h4.1, h3.2.1.trans h4.2.1, h3.2.2.1.trans h4.2.2.2.1,
          h3.2.2.2.1.trans h4.2.2.2.2.1, h3.2.2.2.2.1.trans h4.2.2.2.2.2.1,
          h3.2.2.2.2.2.1.trans h4.2.2.2.2.2.2.1,
          h3.2.2.2.2.2.2.1.trans h4.2.2.2.2.2.2.2.1,
          h3.2.2.2.2.2.2.2.trans h4.2.2.2.2.2.2.2.2⟩
    · rw [actStep_nomatch key st p cl c h1]
      exact ih st p cl

theorem afold_score (key : ℚ × ℚ) (cs : List Cube) (st : GameState) (p : ℤ) (cl : List Cube) :
    (cs.foldl (actStep key) (st, p, cl)).1.score
      = st.score - 1000 * ((cs.filter fun c =>
          decide (markKey c = key) && decide (c.type = CubeType.forbidden)).length : ℤ) := by
  induction cs generalizing st p cl with
  | nil => simp
  | cons c cs ih =>
    rw [List.foldl_cons, List.filter_cons]
    by_cases h1 : markKey c = key
    · cases h2 : c.type
      · rw [actStep_match_norm key st p cl c h1 h2]
        rw [ih st (p + 100) (cl ++ [c])]
        simp [h1, h2]
      · rw [actStep_match_adv key st p cl c h1 h2]
        rw [ih _ (p + 100) (cl ++ [c])]
        simp [h1, h2]
      · rw [actStep_match_forb key st p cl c h1 h2]
        rw [ih (handleForbiddenCube st) p (cl ++ [c]), hfc_score]
        simp only [h1, h2]
        simp
        ring
    · rw [actStep_nomatch key st p cl c h1]
      rw [ih st p cl]
      simp [h1]

theorem afold_rows (key : ℚ × ℚ) (cs : List Cube) (st : GameState) (p : ℤ) (cl : List Cube) :
    (cs.foldl (actStep key) (st, p, cl)).1.rows
      = st.rows - ((cs.filter fun c =>
          decide (markKey c = key) && decide (c.type = CubeType.forbidden)).length : ℤ) := by
  induction cs generalizing st p cl with
  | nil => simp
  | cons c cs ih =>
    rw [List.foldl_cons, List.filter_cons]
    by_cases h1 : markKey c = key
    · cases h2 : c.type
      · rw [actStep_match_norm key st p cl c h1 h2]
        rw [ih st (p + 100) (cl ++ [c])]
        simp [h1, h2]
      · rw [actStep_match_adv key st p cl c h1 h2]
        rw [ih _ (p + 100) (cl ++ [c])]
        simp [h1, h2]
      · rw [actStep_match_forb key st p cl c h1 h2]
        rw [ih (handleForbiddenCube st) p (cl ++ [c]), hfc_rows]
        simp only [h1, h2]
        simp
        ring
    · rw [actStep_nomatch key st p cl c h1]
      rw [ih st p cl]
      simp [h1]

theorem afold_pts (key : ℚ × ℚ) (cs : List Cube) (st : GameState) (p : ℤ) (cl : List Cube) :
    (cs.foldl (actStep key) (st, p, cl)).2.1
      = p + 100 * ((cs.filter fun c =>
          decide (markKey c = key) && !decide (c.type = CubeType.forbidden)).length : ℤ) := by
  induction cs generalizing st p cl with
  | nil => simp
  | cons c cs ih =>
    rw [List.foldl_cons, List.filter_cons]
    by_cases h1 : markKey c = key
    · cases h2 : c.type
      · rw [actStep_match_norm key st p cl c h1 h2]
        rw [ih st (p + 100) (cl ++ [c])]
        simp [h1, h2]
        ring
      · rw [actStep_match_adv key st p cl c h1 h2]
        rw [ih _ (p + 100) (cl ++ [c])]
        simp [h1, h2]
        ring
      · rw [actStep_match_forb key st p cl c h1 h2]
        rw [ih (handleForbiddenCube st) p (cl ++ [c])]
        simp [h1, h2]
    · rw [actStep_nomatch key st p cl c h1]
      rw [ih st p cl]
      simp [h1]

theorem afold_cleared (key : ℚ × ℚ) (cs : List Cube) (st : GameState) (p : ℤ) (cl : List Cube) :
    (cs.foldl (actStep key) (st, p, cl)).2.2
      = cl ++ cs.filter fun c => decide (markKey c = key) := by
  induction cs generalizing st p cl with
  | nil => simp
  | cons c cs ih =>
    rw [List.foldl_cons, List.filter_cons]
    by_cases h1 : markKey c = key
    · cases h2 : c.type
      · rw [actStep_match_norm key st p cl c h1 h2]
        rw [ih st (p + 100) (cl ++ [c])]
        simp [h1]
      · rw [actStep_match_adv key st p cl c h1 h2]
        rw [ih _ (p + 100) (cl ++ [c])]
        simp [h1]
      · rw [actStep_match_forb key st p cl c h1 h2]
        rw [ih (handleForbiddenCube st) p (cl ++ [c])]
        simp [h1]
    · rw [actStep_nomatch key st p cl c h1]
      rw [ih st p cl]
      simp [h1]

theorem afold_spots (key : ℚ × ℚ) (cs : List Cube) (st : GameState) (p : ℤ) (cl : List Cube) :
    (cs.foldl (actStep key) (st, p, cl)).1.advantageSpots
      = if cs.any (fun c => decide (markKey c = key) && decide (c.type = CubeType.advantage))
        then mapSet key st.advantageSpots else st.advantageSpots := by
  induction cs generalizing st p cl with
  | nil => simp
  | cons c cs ih =>
    rw [List.foldl_cons, List.any_cons]
    by_cases h1 : markKey c = key
    · cases h2 : c.type
      · rw [actStep_match_norm key st p cl c h1 h2]
        rw [ih st (p + 100) (cl ++ [c])]
        simp [h1, h2]
      · rw [actStep_match_adv key st p cl c h1 h2]
        rw [ih _ (p + 100) (cl ++ [c])]
        simp only [h1, h2]
        simp [mapSet_idem]
      · rw [actStep_match_forb key st p cl c h1 h2]
        rw [ih (handleForbiddenCube st) p (cl ++ [c])]
        have h4 := (hfc_frame st).2.2.1
        simp [h1, h2, h4]
    · rw [actStep_nomatch key st p cl c h1]
      rw [ih st p cl]
      simp [h1]

theorem afold_rowsOk (key : ℚ × ℚ) (cs : List Cube) (st : GameState) (p : ℤ) (cl : List Cube)
    (h : RowsOk st) : RowsOk (cs.foldl (actStep key) (st, p, cl)).1 := by
  induction cs generalizing st p cl with
  | nil => simpa using h
  | cons c cs ih =>
    rw [List.foldl_cons]
    by_cases h1 : markKey c = key
    · cases h2 : c.type
      · rw [actStep_match_norm key st p cl c h1 h2]
        exact ih st (p + 100) (cl ++ [c]) h
      · rw [actStep_match_adv key st p cl c h1 h2]
        exact ih _ (p + 100) (cl ++ [c]) h
      · rw [actStep_match_forb key st p cl c h1 h2]
        exact ih (handleForbiddenCube st) p (cl ++ [c]) (hfc_rowsOk st)
    · rw [actStep_nomatch key st p cl c h1]
      exact ih st p cl h

theorem afold_go_mono (key : ℚ × ℚ) (cs : List Cube) (st : GameState) (p : ℤ) (cl : List Cube)
    (h : st.isGameOver = true) : (cs.foldl (actStep key) (st, p, cl)).1.isGameOver = true := by
  induction cs generalizing st p cl with
  | nil => simpa using h
  | cons c cs ih =>
    rw [List.foldl_cons]
    by_cases h1 : markKey c = key
    · cases h2 : c.type
      · rw [actStep_match_norm key st p cl c h1 h2]
        exact ih st (p + 100) (cl ++ [c]) h
      · rw [actStep_match_adv key st p cl c h1 h2]
        exact ih _ (p + 100) (cl ++ [c]) h
      · rw [actStep_match_forb key st p cl c h1 h2]
        exact ih (handleForbiddenCube st) p (cl ++ [c]) (hfc_go_mono st h)
    · rw [actStep_nomatch key st p cl c h1]
      exact ih st p cl h

theorem afold_gameOver (key : ℚ × ℚ) (cs : List Cube) (st : GameState) (p : ℤ) (cl : List Cube) :
    (cs.foldl (actStep key) ({ st with isGameOver := true }, p, cl)).1.score
        = (cs.foldl (actStep key) (st, p, cl)).1.score ∧
      (cs.foldl (actStep key) ({ st with isGameOver := true }, p, cl)).1.rows
        = (cs.foldl (actStep key) (st, p, cl)).1.rows ∧
      (cs.foldl (actStep key) ({ st with isGameOver := true }, p, cl)).1.advantageSpots
        = (cs.foldl (actStep key) (st, p, cl)).1.advantageSpots ∧
      (cs.foldl (actStep key) ({ st with isGameOver := true }, p, cl)).2
        = (cs.foldl (actStep key) (st, p, cl)).2 := by
  refine ⟨?_, ?_, ?_, ?_⟩
  · rw [afold_score, afold_score]
  · rw [afold_rows, afold_rows]
  · rw [afold_spots, afold_spots]
  · have h1 := afold_pts key cs { st with isGameOver := true } p cl
    have h2 := afold_pts key cs st p cl
    have h3 := afold_cleared key cs { st with isGameOver := true } p cl
    have h4 := afold_cleared key cs st p cl
    have : (cs.foldl (actStep key) ({ st with isGameOver := true }, p, cl)).2
        = ((cs.foldl (actStep key) ({ st with isGameOver := true }, p, cl)).2.1,
           (cs.foldl (actStep key) ({ st with isGameOver := true }, p, cl)).2.2) := rfl
    rw [this, h1, h3, h2.symm, h4.symm]

theorem toggleMark_mark (s : GameState) (h : s.markedCells = []) :
    toggleMark s = { s with markedCells := [playerMarkCell s] } := by
  unfold toggleMark
  rw [h]

theorem toggleMark_activate_eq (s : GameState) (key : ℚ × ℚ) (rest : List (ℚ × ℚ))
    (h : s.markedCells = key :: rest) :
    toggleMark s =
      { (s.cubes.foldl (actStep key) (s, 0, [])).1 with
        cubes := (s.cubes.foldl (actStep key) (s, 0, [])).1.cubes.filter
          (fun c => !decide (c ∈ (s.cubes.foldl (actStep key) (s, 0, [])).2.2)),
        score := (s.cubes.foldl (actStep key) (s, 0, [])).1.score
          + (s.cubes.foldl (actStep key) (s, 0, [])).2.1,
        markedCells := [] } := by
  unfold toggleMark
  rw [h]
  by_cases hp : 0 < (s.cubes.foldl (actStep key) (s, 0, [])).2.1
  · simp [hp]
  · have h0 : (s.cubes.foldl (actStep key) (s, 0, [])).2.1 = 0 := by
      have := afold_pts key s.cubes s 0 []
      omega
    simp [hp, h0]

theorem toggleMark_activate (s : GameState) (key : ℚ × ℚ) (rest : List (ℚ × ℚ))
    (h : s.markedCells = key :: rest) :
    (toggleMark s).score = s.score + 100 * (nMark s key : ℤ) - 1000 * (fMark s key : ℤ) ∧
    (toggleMark s).rows = s.rows - (fMark s key : ℤ) ∧
    (toggleMark s).cubes = (s.cubes.filter fun c => !decide (markKey c = key)) ∧
    (toggleMark s).markedCells = [] ∧
    (toggleMark s).advantageSpots
      = (if s.cubes.any (fun c => decide (markKey c = key) && decide (c.type = CubeType.advantage))
         then mapSet key s.advantageSpots else s.advantageSpots) ∧
    (toggleMark s).level = s.level ∧
    (toggleMark s).cols = s.cols ∧
    (toggleMark s).playerX = s.playerX ∧
    (toggleMark s).playerZ = s.playerZ ∧
    (toggleMark s).moveTimer = s.moveTimer ∧
    (toggleMark s).currentWave = s.currentWave ∧
    (toggleMark s).isGameOver = (s.cubes.foldl (actStep key) (s, 0, [])).1.isGameOver := by
  rw [toggleMark_activate_eq s key rest h]
  have hsc := afold_score key s.cubes s 0 []
  have hrw := afold_rows key s.cubes s 0 []
  have hpt := afold_pts key s.cubes s 0 []
  have hcl := afold_cleared key s.cubes s 0 []
  have hsp := afold_spots key s.cubes s 0 []
  have hfr := afold_frame key s.cubes s 0 []
  refine ⟨?_, ?_, ?_, ?_, ?_, ?_, ?_, ?_, ?_, ?_, ?_, ?_⟩
  · simp only [hsc, hpt]
    simp [nMark, fMark]
    ring
  · simp only [hrw]
    simp [fMark]
  · simp only [hfr.1, hcl]
    apply List.filter_congr
    intro c hc
    by_cases hm : markKey c = key <;> simp [List.mem_filter, hc, hm]
  · rfl
  · simp only [hsp]
  · simp only [hfr.2.2.1]
  · simp only [hfr.2.2.2.1]
  · simp only [hfr.2.2.2.2.1]
  · simp only [hfr.2.2.2.2.2.1]
  · simp only [hfr.2.2.2.2.2.2.1]
  · simp only [hfr.2.2.2.2.2.2.2]
  · rfl

theorem toggleMark_rowsOk (s : GameState) (h : RowsOk s) : RowsOk (toggleMark s) := by
  cases hm : s.markedCells with
  | nil =>
    rw [toggleMark_mark s hm]
    intro hgo
    exact h hgo
  | cons key rest =>
    have ha := toggleMark_activate s key rest hm
    intro hgo
    rw [ha.2.2.2.2.2.2.2.2.2.2.2] at hgo
    have := afold_rowsOk key s.cubes s 0 [] h hgo
    rw [ha.2.1]
    rw [afold_rows key s.cubes s 0 []] at this
    simp [fMark]
    omega

theorem toggleMark_len_le (s : GameState) : (toggleMark s).markedCells.length ≤ 1 := by
  cases hm : s.markedCells with
  | nil => rw [toggleMark_mark s hm]; simp
  | cons key rest =>
    rw [(toggleMark_activate s key rest hm).2.2.2.1]
    simp

theorem toggleMark_goTrue (s : GameState) :
    toggleMark { s with isGameOver := true } = { toggleMark s with isGameOver := true } := by
  by_cases hm : s.markedCells = []
  · have hm2 : ({ s with isGameOver := true } : GameState).markedCells = [] := hm
    rw [toggleMark_mark _ hm2, toggleMark_mark s hm]
    rfl
  · obtain ⟨key, rest, hm⟩ := List.exists_cons_of_ne_nil hm
    have hm2 : ({ s with isGameOver := true } : GameState).markedCells = key :: rest := hm
    rw [toggleMark_activate_eq _ key rest hm2, toggleMark_activate_eq s key rest hm]
    have hc : ({ s with isGameOver := true } : GameState).cubes = s.cubes := rfl
    rw [hc]
    have hg := afold_gameOver key s.cubes s 0 []
    have h21 : (s.cubes.foldl (actStep key) ({ s with isGameOver := true }, 0, [])).2.1
        = (s.cubes.foldl (actStep key) (s, 0, [])).2.1 := by rw [hg.2.2.2]
    have h22 : (s.cubes.foldl (actStep key) ({ s with isGameOver := true }, 0, [])).2.2
        = (s.cubes.foldl (actStep key) (s, 0, [])).2.2 := by rw [hg.2.2.2]
    have hfr' := afold_frame key s.cubes { s with isGameOver := true } 0 []
    have hfr := afold_frame key s.cubes s 0 []
    have hgo := afold_go_mono key s.cubes { s with isGameOver := true } 0 [] rfl
    refine GameState.ext ?_ ?_ ?_ ?_ ?_ ?_ ?_ ?_ ?_ ?_ ?_ ?_
    · rw [hfr'.2.2.1, hfr.2.2.1]
    · rw [hg.1, h21]
    · rw [hg.2.1]
    · rw [hfr'.2.2.2.1, hfr.2.2.2.1]
    · rw [hfr'.2.2.2.2.1, hfr.2.2.2.2.1]
    · rw [hfr'.2.2.2.2.2.1, hfr.2.2.2.2.2.1]
    · rfl
    · rw [hg.2.2.1]
    · rw [hfr'.1, hfr.1, h22]
    · rw [hfr'.2.2.2.2.2.2.1, hfr.2.2.2.2.2.2.1]
    · exact hgo
    · rw [hfr'.2.2.2.2.2.2.2, hfr.2.2.2.2.2.2.2]

theorem triggerSpot_eq (s : GameState) (key : ℚ × ℚ) :
    triggerSpot s key =
      { handleForbiddenCube^[fCheb s key] s with
        cubes := (handleForbiddenCube^[fCheb s key] s).cubes.filter
          (fun c => !decide (c ∈ s.cubes.filter (chebHit key))),
        advantageSpots := (handleForbiddenCube^[fCheb s key] s).advantageSpots.erase key,
        score := (handleForbiddenCube^[fCheb s key] s).score + 200 * (nCheb s key : ℤ) } := by
  unfold triggerSpot
  by_cases hp : (0 : ℤ) < 200 * ((s.cubes.filter (chebHit key)).filter
      (fun c => !decide (c.type = CubeType.forbidden))).length
  · simp only [hp, if_true]
    rfl
  · have h0 : ((s.cubes.filter (chebHit key)).filter
        (fun c => !decide (c.type = CubeType.forbidden))).length = 0 := by omega
    simp only [hp, if_false]
    have hn : (nCheb s key : ℤ) = 0 := by
      simp only [nCheb, h0]
      rfl
    rw [hn]
    simp only [mul_zero, add_zero]
    rfl

theorem triggerSpot_spec (s : GameState) (key : ℚ × ℚ) :
    (triggerSpot s key).score = s.score + 200 * (nCheb s key : ℤ) - 1000 * (fCheb s key : ℤ) ∧
    (triggerSpot s key).rows = s.rows - (fCheb s key : ℤ) ∧
    (triggerSpot s key).cubes = (s.cubes.filter fun c => !chebHit key c) ∧
    (triggerSpot s key).advantageSpots = s.advantageSpots.erase key ∧
    (triggerSpot s key).markedCells = s.markedCells ∧
    (triggerSpot s key).level = s.level ∧
    (triggerSpot s key).cols = s.cols ∧
    (triggerSpot s key).playerX = s.playerX ∧
    (triggerSpot s key).playerZ = s.playerZ ∧
    (triggerSpot s key).moveTimer = s.moveTimer ∧
    (triggerSpot s key).currentWave = s.currentWave ∧
    (triggerSpot s key).isGameOver = (handleForbiddenCube^[fCheb s key] s).isGameOver := by
  rw [triggerSpot_eq s key]
  have hfr := hfcIter_frame (fCheb s key) s
  refine ⟨?_, ?_, ?_, ?_, ?_, ?_, ?_, ?_, ?_, ?_, ?_, ?_⟩
  · rw [hfcIter_score]
    ring
  · rw [hfcIter_rows]
  · rw [hfr.1]
    apply List.filter_congr
    intro c hc
    by_cases hm : chebHit key c = true
    · simp [List.mem_filter, hc, hm]
    · simp only [Bool.not_eq_true] at hm
      simp [List.mem_filter, hc, hm]
  · rw [hfr.2.2.1]
  · rw [hfr.2.1]
  · rw [hfr.2.2.2.1]
  · rw [hfr.2.2.2.2.1]
  · rw [hfr.2.2.2.2.2.1]
  · rw [hfr.2.2.2.2.2.2.1]
  · rw [hfr.2.2.2.2.2.2.2.1]
  · rw [hfr.2.2.2.2.2.2.2.2]
  · rfl

theorem triggerSpot_rowsOk (s : GameState) (key : ℚ × ℚ) (h : RowsOk s) :
    RowsOk (triggerSpot s key) := by
  have hs := triggerSpot_spec s key
  intro hgo
  rw [hs.2.2.2.2.2.2.2.2.2.2.2] at hgo
  have := hfcIter_rowsOk (fCheb s key) s h hgo
  rw [hs.2.1, hfcIter_rows] at *
  omega

theorem triggerSpot_goTrue (s : GameState) (key : ℚ × ℚ) :
    triggerSpot { s with isGameOver := true } key = { triggerSpot s key with isGameOver := true } := by
  have hf : fCheb { s with isGameOver := true } key = fCheb s key := rfl
  have hn : nCheb { s with isGameOver := true } key = nCheb s key := rfl
  have hcu : ({ s with isGameOver := true } : GameState).cubes = s.cubes := rfl
  rw [triggerSpot_eq _ key, triggerSpot_eq s key, hf, hn, hcu, hfcIter_goTrue]

theorem trigFold_frame (l : List (ℚ × ℚ)) (s : GameState) :
    (l.foldl triggerSpot s).markedCells = s.markedCells ∧
    (l.foldl triggerSpot s).level = s.level ∧
    (l.foldl triggerSpot s).cols = s.cols ∧
    (l.foldl triggerSpot s).playerX = s.playerX ∧
    (l.foldl triggerSpot s).playerZ = s.playerZ ∧
    (l.foldl triggerSpot s).moveTimer = s.moveTimer ∧
    (l.foldl triggerSpot s).currentWave = s.currentWave := by
  induction l generalizing s with
  | nil => simp
  | cons key t ih =>
    rw [List.foldl_cons]
    have h1 := ih (triggerSpot s key)
    have h2 := triggerSpot_spec s key
    exact ⟨h1.1.trans h2.2.2.2.2.1, h1.2.1.trans h2.2.2.2.2.2.1,
      h1.2.2.1.trans h2.2.2.2.2.2.2.1, h1.2.2.2.1.trans h2.2.2.2.2.2.2.2.1,
      h1.2.2.2.2.1.trans h2.2.2.2.2.2.2.2.2.1,
      h1.2.2.2.2.2.1.trans h2.2.2.2.2.2.2.2.2.2.1,
      h1.2.2.2.2.2.2.trans h2.2.2.2.2.2.2.2.2.2.2.1⟩

theorem trigFold_rowsOk (l : List (ℚ × ℚ)) (s : GameState) (h : RowsOk s) :
    RowsOk (l.foldl triggerSpot s) := by
  induction l generalizing s with
  | nil => simpa using h
  | cons key t ih =>
    rw [List.foldl_cons]
    exact ih (triggerSpot s key) (triggerSpot_rowsOk s key h)

theorem trigFold_goTrue (l : List (ℚ × ℚ)) (s : GameState) :
    l.foldl triggerSpot { s with isGameOver := true }
      = { l.foldl triggerSpot s with isGameOver := true } := by
  induction l generalizing s with
  | nil => simp
  | cons key t ih =>
    rw [List.foldl_cons, List.foldl_cons, triggerSpot_goTrue, ih]

theorem trigFold_spots (l : List (ℚ × ℚ)) (s : GameState) :
    (l.foldl triggerSpot s).advantageSpots = l.foldl List.erase s.advantageSpots := by
  induction l generalizing s with
  | nil => simp
  | cons key t ih =>
    rw [List.foldl_cons, List.foldl_cons, ih (triggerSpot s key),
      (triggerSpot_spec s key).2.2.2.1]

theorem eraseFold_self (l : List (ℚ × ℚ)) : List.foldl List.erase l l = [] := by
  induction l with
  | nil => rfl
  | cons a t ih =>
    rw [List.foldl_cons, List.erase_cons_head]
    exact ih

theorem triggerAll_of_ne (s : GameState) (h : ¬ s.advantageSpots = []) :
    triggerAllAdvantageSpots s = s.advantageSpots.foldl triggerSpot s := by
  unfold triggerAllAdvantageSpots
  rw [if_neg]
  simpa [List.isEmpty_iff] using h

theorem triggerAll_spots (s : GameState) :
    (triggerAllAdvantageSpots s).advantageSpots = [] := by
  by_cases h : s.advantageSpots = []
  · unfold triggerAllAdvantageSpots
    rw [if_pos]
    · exact h
    · simpa [List.isEmpty_iff] using h
  · rw [triggerAll_of_ne s h, trigFold_spots, eraseFold_self]

theorem triggerAll_rowsOk (s : GameState) (h : RowsOk s) :
    RowsOk (triggerAllAdvantageSpots s) := by
  unfold triggerAllAdvantageSpots
  split
  · exact h
  · exact trigFold_rowsOk _ s h

theorem triggerAll_goTrue (s : GameState) :
    triggerAllAdvantageSpots { s with isGameOver := true }
      = { triggerAllAdvantageSpots s with isGameOver := true } := by
  have hsp : ({ s with isGameOver := true } : GameState).advantageSpots = s.advantageSpots := rfl
  unfold triggerAllAdvantageSpots
  rw [hsp]
  split
  · rfl
  · exact trigFold_goTrue s.advantageSpots s

theorem triggerAll_marked (s : GameState) :
    (triggerAllAdvantageSpots s).markedCells = s.markedCells := by
  unfold triggerAllAdvantageSpots
  split
  · rfl
  · exact (trigFold_frame s.advantageSpots s).1

theorem generateWave_frame (s : GameState) (r : ℕ → ℚ) :
    (generateWave s r).score = s.score ∧
    (generateWave s r).rows = s.rows ∧
    (generateWave s r).level = s.level ∧
    (generateWave s r).cols = s.cols ∧
    (generateWave s r).playerX = s.playerX ∧
    (generateWave s r).playerZ = s.playerZ ∧
    (generateWave s r).markedCells = s.markedCells ∧
    (generateWave s r).advantageSpots = s.advantageSpots ∧
    (generateWave s r).moveTimer = s.moveTimer ∧
    (generateWave s r).isGameOver = s.isGameOver ∧
    (generateWave s r).currentWave = s.currentWave :=
  ⟨rfl, rfl, rfl, rfl, rfl, rfl, rfl, rfl, rfl, rfl, rfl⟩

theorem generateWave_len (s : GameState) (r : ℕ → ℚ) :
    (generateWave s r).cubes.length = s.cols * min (3 + s.level) 14 := by
  show ((List.range (min (3 + s.level) 14)).flatMap fun i =>
    (List.range s.cols).map fun j => waveCube s r i j).length = s.cols * min (3 + s.level) 14
  rw [List.length_flatMap]
  have h : (List.length ∘ fun i => (List.range s.cols).map fun j => waveCube s r i j)
      = fun _ => s.cols := by
    funext i
    simp
  rw [h, List.map_const', List.sum_replicate, smul_eq_mul, List.length_range]
  exact Nat.mul_comm _ _

theorem generateWave_mem (s : GameState) (r : ℕ → ℚ) (c : Cube) :
    c ∈ (generateWave s r).cubes
      ↔ ∃ i < min (3 + s.level) 14, ∃ j < s.cols, c = waveCube s r i j := by
  show c ∈ ((List.range (min (3 + s.level) 14)).flatMap fun i =>
    (List.range s.cols).map fun j => waveCube s r i j) ↔ _
  simp [List.mem_flatMap, List.mem_map, List.mem_range, eq_comm]

theorem movePhase_frame (s : GameState) (k : Keys) :
    (movePhase s k).score = s.score ∧
    (movePhase s k).rows = s.rows ∧
    (movePhase s k).cubes = s.cubes ∧
    (movePhase s k).markedCells = s.markedCells ∧
    (movePhase s k).advantageSpots = s.advantageSpots ∧
    (movePhase s k).level = s.level ∧
    (movePhase s k).cols = s.cols ∧
    (movePhase s k).moveTimer = s.moveTimer ∧
    (movePhase s k).isGameOver = s.isGameOver ∧
    (movePhase s k).currentWave = s.currentWave := by
  unfold movePhase
  by_cases hw : wouldCollide s (clampX s (movedX k s.playerX)) (clampZ s (movedZ k s.playerZ)) = true <;>
    simp [hw]

theorem updatePlayer_frame (s : GameState) (k : Keys) :
    (updatePlayer s k).score = s.score ∧
    (updatePlayer s k).rows = s.rows ∧
    (updatePlayer s k).cubes = s.cubes ∧
    (updatePlayer s k).markedCells = s.markedCells ∧
    (updatePlayer s k).advantageSpots = s.advantageSpots ∧
    (updatePlayer s k).level = s.level ∧
    (updatePlayer s k).cols = s.cols ∧
    (updatePlayer s k).moveTimer = s.moveTimer ∧
    (updatePlayer s k).currentWave = s.currentWave := by
  unfold updatePlayer handlePlayerDeath
  have hm := movePhase_frame s k
  by_cases hgo : s.isGameOver = true
  · simp [hgo]
  · by_cases hcr : isPlayerCrushed (movePhase s k) = true <;>
      simp [hgo, hcr, hm.1, hm.2.1, hm.2.2.1, hm.2.2.2.1, hm.2.2.2.2.1, hm.2.2.2.2.2.1,
        hm.2.2.2.2.2.2.1, hm.2.2.2.2.2.2.2.1, hm.2.2.2.2.2.2.2.2.2]

theorem updatePlayer_rowsOk (s : GameState) (k : Keys) (h : RowsOk s) :
    RowsOk (updatePlayer s k) := by
  intro hgo
  rw [(updatePlayer_frame s k).2.1]
  apply h
  by_cases hsgo : s.isGameOver = true
  · unfold updatePlayer at hgo
    rw [if_pos hsgo] at hgo
    simp [hsgo] at hgo
  · simpa using hsgo

theorem updateCubes_frame (s : GameState) (r : ℕ → ℚ) :
    (updateCubes s r).score = s.score ∧
    (updateCubes s r).rows = s.rows ∧
    (updateCubes s r).playerX = s.playerX ∧
    (updateCubes s r).playerZ = s.playerZ ∧
    (updateCubes s r).markedCells = s.markedCells ∧
    (updateCubes s r).advantageSpots = s.advantageSpots ∧
    (updateCubes s r).cols = s.cols ∧
    (updateCubes s r).isGameOver = s.isGameOver := by
  unfold updateCubes startLevel generateWave
  by_cases h1 : moveInterval ≤ s.moveTimer + 1
  · by_cases h2 : ((s.cubes.map rollCube).filter
        fun c => !decide ((s.rows : ℚ)/2 < c.z)).isEmpty = true
    · by_cases h3 : s.currentWave + 1 < wavesPerLevel <;> simp [h1, h2, h3]
    · simp [h1, h2]
  · simp [h1]

theorem settleCube_frame (s : GameState) (i : ℕ) :
    (settleCube s i).score = s.score ∧
    (settleCube s i).rows = s.rows ∧
    (settleCube s i).playerX = s.playerX ∧
    (settleCube s i).playerZ = s.playerZ ∧
    (settleCube s i).markedCells = s.markedCells ∧
    (settleCube s i).advantageSpots = s.advantageSpots ∧
    (settleCube s i).level = s.level ∧
    (settleCube s i).cols = s.cols ∧
    (settleCube s i).moveTimer = s.moveTimer ∧
    (settleCube s i).isGameOver = s.isGameOver ∧
    (settleCube s i).currentWave = s.currentWave := by
  unfold settleCube
  split
  · split <;> simp
  · simp

theorem tick_stop (s : GameState) (k : Keys) (r : ℕ → ℚ) (h : s.isGameOver = true) :
    tick s k r = s := by
  unfold tick
  rw [if_pos h]

theorem tick_rowsOk (s : GameState) (k : Keys) (r : ℕ → ℚ) (h : RowsOk s) :
    RowsOk (tick s k r) := by
  unfold tick
  split
  · exact h
  · intro hgo
    rw [(updateCubes_frame (updatePlayer s k) r).2.1]
    rw [(updateCubes_frame (updatePlayer s k) r).2.2.2.2.2.2.2] at hgo
    exact updatePlayer_rowsOk s k h hgo

theorem tick_marked (s : GameState) (k : Keys) (r : ℕ → ℚ) :
    (tick s k r).markedCells = s.markedCells := by
  unfold tick
  split
  · rfl
  · rw [(updateCubes_frame (updatePlayer s k) r).2.2.2.2.1,
      (updatePlayer_frame s k).2.2.2.1]

theorem reachable_rowsOk (s : GameState) (h : Reachable s) : RowsOk s := by
  induction h with
  | init r =>
    intro _
    show (5 : ℤ) ≤ (25 : ℤ)
    norm_num
  | step hr hs ih =>
    cases hs with
    | tick k r => exact tick_rowsOk _ k r ih
    | mark => exact toggleMark_rowsOk _ ih
    | trigger => exact triggerAll_rowsOk _ ih
    | settle i =>
      intro hgo
      rw [(settleCube_frame _ i).2.1]
      rw [(settleCube_frame _ i).2.2.2.2.2.2.2.2.2.1] at hgo
      exact ih hgo

theorem reachable_marked_le (s : GameState) (h : Reachable s) : s.markedCells.length ≤ 1 := by
  induction h with
  | init r =>
    show ([] : List (ℚ × ℚ)).length ≤ 1
    simp
  | step hr hs ih =>
    cases hs with
    | tick k r => rw [tick_marked _ k r]; exact ih
    | mark => exact toggleMark_len_le _
    | trigger => rw [triggerAll_marked _]; exact ih
    | settle i => rw [(settleCube_frame _ i).2.2.2.2.1]; exact ih

theorem updatePlayer_crushed (s : GameState) (k : Keys) (hgo : s.isGameOver = false)
    (hcr : isPlayerCrushed (movePhase s k) = true) :
    (updatePlayer s k).isGameOver = true := by
  unfold updatePlayer
  rw [if_neg (by simp [hgo])]
  simp [hcr, handlePlayerDeath]

theorem tick_crushed (s : GameState) (k : Keys) (r : ℕ → ℚ) (hgo : s.isGameOver = false)
    (hcr : isPlayerCrushed (movePhase s k) = true) :
    (tick s k r).isGameOver = true := by
  unfold tick
  rw [if_neg (by simp [hgo])]
  rw [(updateCubes_frame (updatePlayer s k) r).2.2.2.2.2.2.2]
  exact updatePlayer_crushed s k hgo hcr

theorem updateCubes_empty (s : GameState) (r : ℕ → ℚ)
    (h1 : moveInterval ≤ s.moveTimer + 1) (h2 : survivors s = []) :
    updateCubes s r =
      (if s.currentWave + 1 < wavesPerLevel
       then generateWave
         { s with moveTimer := 0, cubes := ([] : List Cube),
                  currentWave := s.currentWave + 1 } r
       else startLevel
         { s with moveTimer := 0, cubes := ([] : List Cube),
                  currentWave := s.currentWave + 1, level := s.level + 1 } r) := by
  have h2' : ((s.cubes.map rollCube).filter fun c => !decide ((s.rows : ℚ)/2 < c.z)) = [] := h2
  unfold updateCubes
  by_cases h3 : s.currentWave + 1 < wavesPerLevel <;>
    simp [h1, h2', h3, startLevel]

/-- C1: clearing a Forbidden cube subtracts exactly 1000 from the score and
1 from the row count, once per matched forbidden cube, in the
handleForbiddenCube primitive, in a mark activation and in an
advantage-area activation, whatever else is matched. -/
theorem claim_C1 :
    (∀ s : GameState,
      (handleForbiddenCube s).score = s.score - 1000 ∧
      (handleForbiddenCube s).rows = s.rows - 1) ∧
    (∀ (s : GameState) (key : ℚ × ℚ) (rest : List (ℚ × ℚ)), s.markedCells = key :: rest →
      (toggleMark s).score
          = s.score + 100 * (nMark s key : ℤ) - 1000 * (fMark s key : ℤ) ∧
      (toggleMark s).rows = s.rows - (fMark s key : ℤ)) ∧
    (∀ (s : GameState) (key : ℚ × ℚ),
      (triggerSpot s key).score
          = s.score + 200 * (nCheb s key : ℤ) - 1000 * (fCheb s key : ℤ) ∧
      (triggerSpot s key).rows = s.rows - (fCheb s key : ℤ)) := by
  refine ⟨fun s => ⟨hfc_score s, hfc_rows s⟩, fun s key rest h => ?_, fun s key => ?_⟩
  · have ha := toggleMark_activate s key rest h
    exact ⟨ha.1, ha.2.1⟩
  · have hs := triggerSpot_spec s key
    exact ⟨hs.1, hs.2.1⟩

/-- Witness for C1 at a concrete marked state holding one forbidden
cube. -/
theorem claim_C1_witness :
    (toggleMark exOverMark).score
        = exOverMark.score + 100 * (nMark exOverMark (1/2, 5) : ℤ)
            - 1000 * (fMark exOverMark (1/2, 5) : ℤ) ∧
    (toggleMark exOverMark).rows = exOverMark.rows - (fMark exOverMark (1/2, 5) : ℤ) :=
  claim_C1.2.1 exOverMark (1/2, 5) [] rfl

/-- C2: every reachable state that is not game over keeps at least 5 rows,
and each operation that can shrink the stage below 5 rows sets the
game-over flag in the same atomic step. -/
theorem claim_C2 :
    (∀ s : GameState, Reachable s → s.isGameOver = false → 5 ≤ s.rows) ∧
    (∀ s : GameState,
      (handleForbiddenCube s).rows < 5 → (handleForbiddenCube s).isGameOver = true) ∧
    (∀ s : GameState, RowsOk s →
      (toggleMark s).rows < 5 → (toggleMark s).isGameOver = true) ∧
    (∀ s : GameState, RowsOk s →
      (triggerAllAdvantageSpots s).rows < 5 →
        (triggerAllAdvantageSpots s).isGameOver = true) := by
  refine ⟨fun s h => reachable_rowsOk s h, fun s h => ?_, fun s hP hlt => ?_, fun s hP hlt => ?_⟩
  · rw [hfc_rows] at h
    rw [hfc_gameOver]
    simp
    omega
  · by_cases hgo : (toggleMark s).isGameOver = true
    · exact hgo
    · exfalso
      have := toggleMark_rowsOk s hP (by simpa using hgo)
      omega
  · by_cases hgo : (triggerAllAdvantageSpots s).isGameOver = true
    · exact hgo
    · exfalso
      have := triggerAll_rowsOk s hP (by simpa using hgo)
      omega

/-- Witness for C2: the freshly constructed game satisfies the floor, and
shrinking a 5-row stage ends the game. -/
theorem claim_C2_witness :
    (5 ≤ (initState drawsZero).rows) ∧ (handleForbiddenCube exRows5).isGameOver = true :=
  ⟨claim_C2.1 (initState drawsZero) (Reachable.init drawsZero) rfl,
   claim_C2.2.1 exRows5 (by rw [hfc_rows]; norm_num [exRows5, exMark])⟩

/-- C3: a tick in which a rolling cube occupies the player's cell ends in
the game-over state, and a tick from the game-over state changes
nothing. -/
theorem claim_C3 :
    (∀ (s : GameState) (k : Keys) (r : ℕ → ℚ), s.isGameOver = false →
      isPlayerCrushed (movePhase s k) = true → (tick s k r).isGameOver = true) ∧
    (∀ (s : GameState) (k : Keys) (r : ℕ → ℚ), s.isGameOver = true → tick s k r = s) :=
  ⟨fun s k r hgo hcr => tick_crushed s k r hgo hcr,
   fun s k r h => tick_stop s k r h⟩

/-- Witness for C3 at a concrete state with a rolling cube on the player's
cell, and at a concrete game-over state. -/
theorem claim_C3_witness :
    (tick exCrush keysNone drawsZero).isGameOver = true ∧
    tick exOverMark keysNone drawsZero = exOverMark :=
  ⟨claim_C3.1 exCrush keysNone drawsZero rfl
    (by norm_num [isPlayerCrushed, movePhase, wouldCollide, clampX, clampZ, movedX, movedZ,
      keysNone, exCrush, cellQ, jsRound, playerSpeed]),
   claim_C3.2 exOverMark keysNone drawsZero rfl⟩

/-- C4: when the destination cell holds a non-rolling cube the player does
not move; otherwise the player's position becomes the key displacement
clamped to the stage bounds. -/
theorem claim_C4 (s : GameState) (k : Keys) (h : s.isGameOver = false) :
    (wouldCollide s (clampX s (movedX k s.playerX)) (clampZ s (movedZ k s.playerZ)) = true →
      (updatePlayer s k).playerX = s.playerX ∧ (updatePlayer s k).playerZ = s.playerZ) ∧
    (wouldCollide s (clampX s (movedX k s.playerX)) (clampZ s (movedZ k s.playerZ)) = false →
      (updatePlayer s k).playerX = clampX s (movedX k s.playerX) ∧
      (updatePlayer s k).playerZ = clampZ s (movedZ k s.playerZ)) := by
  unfold updatePlayer movePhase handlePlayerDeath
  rw [if_neg (by simp [h])]
  constructor
  · intro hw
    simp only [hw, if_true]
    split <;> simp
  · intro hw
    simp only [hw, Bool.false_eq_true, if_false]
    split <;> simp

/-- Witness for C4: a blocked move leaves the player in place. -/
theorem claim_C4_witness :
    (updatePlayer exColl keysRight).playerX = exColl.playerX ∧
    (updatePlayer exColl keysRight).playerZ = exColl.playerZ :=
  (claim_C4 exColl keysRight rfl).1
    (by norm_num [wouldCollide, clampX, clampZ, movedX, movedZ, keysRight, keysNone,
      exColl, cellQ, jsRound, playerSpeed])

/-- C5: a reachable state holds at most one marked cell; marking from the
unmarked state records exactly the cell derived from the player's position,
and toggling with a mark present clears it. -/
theorem claim_C5 :
    (∀ s : GameState, Reachable s → s.markedCells.length ≤ 1) ∧
    (∀ s : GameState, s.markedCells = [] →
      (toggleMark s).markedCells = [playerMarkCell s]) ∧
    (∀ (s : GameState) (key : ℚ × ℚ) (rest : List (ℚ × ℚ)), s.markedCells = key :: rest →
      (toggleMark s).markedCells = []) := by
  refine ⟨fun s h => reachable_marked_le s h, fun s h => ?_, fun s key rest h => ?_⟩
  · rw [toggleMark_mark s h]
  · exact (toggleMark_activate s key rest h).2.2.2.1

/-- Witness for C5: marking from a concrete unmarked state records the
player's cell. -/
theorem claim_C5_witness :
    (toggleMark exMark).markedCells = [playerMarkCell exMark] :=
  claim_C5.2.1 exMark rfl

/-- C6: a mark activation removes every matched cube (100 points per
matched non-forbidden cube), and in the concrete scenario of a single
forbidden cube on the marked cell the activation costs 1000 points, one
row, and removes the cube. -/
theorem claim_C6 :
    (∀ (s : GameState) (key : ℚ × ℚ) (rest : List (ℚ × ℚ)), s.markedCells = key :: rest →
      (toggleMark s).cubes = (s.cubes.filter fun c => !decide (markKey c = key)) ∧
      (toggleMark s).score
          = s.score + 100 * (nMark s key : ℤ) - 1000 * (fMark s key : ℤ)) ∧
    ((toggleMark (toggleMark exMark)).score = exMark.score - 1000 ∧
     (toggleMark (toggleMark exMark)).rows = exMark.rows - 1 ∧
     (toggleMark (toggleMark exMark)).cubes = []) := by
  have h1 : toggleMark exMark = { exMark with markedCells := [((1 : ℚ)/2, (5 : ℚ))] } := by
    have hp : playerMarkCell exMark = ((1 : ℚ)/2, (5 : ℚ)) := by
      norm_num [playerMarkCell, exMark]
    rw [toggleMark_mark exMark rfl, hp]
  have ha := toggleMark_activate { exMark with markedCells := [((1 : ℚ)/2, (5 : ℚ))] }
    ((1 : ℚ)/2, (5 : ℚ)) [] rfl
  have hf : fMark { exMark with markedCells := [((1 : ℚ)/2, (5 : ℚ))] } ((1 : ℚ)/2, (5 : ℚ)) = 1 := by
    norm_num [fMark, markKey, exMark]
  have hn : nMark { exMark with markedCells := [((1 : ℚ)/2, (5 : ℚ))] } ((1 : ℚ)/2, (5 : ℚ)) = 0 := by
    norm_num [nMark, markKey, exMark]
  refine ⟨fun s key rest h => ?_, ?_, ?_, ?_⟩
  · have hb := toggleMark_activate s key rest h
    exact ⟨hb.2.2.1, hb.1⟩
  · rw [h1, ha.1, hf, hn]
    norm_num
  · rw [h1, ha.2.1, hf]
    norm_num
  · rw [h1, ha.2.2.1]
    norm_num [exMark, markKey, List.filter]

/-- Witness for C6 at a concrete marked state. -/
theorem claim_C6_witness :
    (toggleMark exOverMark).cubes
        = (exOverMark.cubes.filter fun c => !decide (markKey c = ((1 : ℚ)/2, (5 : ℚ)))) ∧
    (toggleMark exOverMark).score
        = exOverMark.score + 100 * (nMark exOverMark (1/2, 5) : ℤ)
            - 1000 * (fMark exOverMark (1/2, 5) : ℤ) :=
  claim_C6.1 exOverMark (1/2, 5) [] rfl

/-- C7: a wave holds exactly cols * min(3 + level, 14) cubes; its cubes are
exactly the grid of waveCube entries, each kind drawn from its own stream
draw against the cumulative thresholds 0.7 and 0.85; generation is a total
function. -/
theorem claim_C7 :
    (∀ (s : GameState) (r : ℕ → ℚ),
      (generateWave s r).cubes.length = s.cols * min (3 + s.level) 14) ∧
    (∀ (s : GameState) (r : ℕ → ℚ) (c : Cube),
      c ∈ (generateWave s r).cubes
        ↔ ∃ i < min (3 + s.level) 14, ∃ j < s.cols, c = waveCube s r i j) ∧
    (∀ q : ℚ,
      (q < 7/10 → getRandomCubeType q = CubeType.normal) ∧
      (7/10 ≤ q → q < 85/100 → getRandomCubeType q = CubeType.advantage) ∧
      (85/100 ≤ q → getRandomCubeType q = CubeType.forbidden)) := by
  refine ⟨generateWave_len, generateWave_mem, fun q => ⟨?_, ?_, ?_⟩⟩
  · intro h
    unfold getRandomCubeType
    rw [if_pos h]
  · intro h1 h2
    unfold getRandomCubeType
    rw [if_neg (not_lt.mpr h1), if_pos h2]
  · intro h
    unfold getRandomCubeType
    rw [if_neg (not_lt.mpr (le_trans (by norm_num) h)), if_neg (not_lt.mpr h)]

/-- Witness for C7: the first wave of a concrete level-1 state holds
8 * 4 cubes. -/
theorem claim_C7_witness : (generateWave exMark drawsZero).cubes.length = 32 := by
  have h := claim_C7.1 exMark drawsZero
  simpa [exMark] using h

/-- C8: an area activation matches the cubes whose rounded cell is within
Chebyshev distance 1 of the centre, pays 200 per non-forbidden match and
the penalty per forbidden match, removes every matched cube and discards
the area; the action processes the whole pending list in order and leaves
no pending area. -/
theorem claim_C8 :
    (∀ (s : GameState) (key : ℚ × ℚ),
      (triggerSpot s key).cubes = (s.cubes.filter fun c => !chebHit key c) ∧
      (triggerSpot s key).score
          = s.score + 200 * (nCheb s key : ℤ) - 1000 * (fCheb s key : ℤ) ∧
      (triggerSpot s key).rows = s.rows - (fCheb s key : ℤ) ∧
      (triggerSpot s key).advantageSpots = s.advantageSpots.erase key) ∧
    (∀ s : GameState, s.advantageSpots ≠ [] →
      triggerAllAdvantageSpots s = s.advantageSpots.foldl triggerSpot s) ∧
    (∀ s : GameState, (triggerAllAdvantageSpots s).advantageSpots = []) := by
  refine ⟨fun s key => ?_, fun s h => triggerAll_of_ne s h, fun s => triggerAll_spots s⟩
  have hs := triggerSpot_spec s key
  exact ⟨hs.2.2.1, hs.1, hs.2.1, hs.2.2.2.1⟩

/-- Witness for C8 at a concrete state with one pending area. -/
theorem claim_C8_witness :
    triggerAllAdvantageSpots exOverSpot
      = exOverSpot.advantageSpots.foldl triggerSpot exOverSpot :=
  claim_C8.2.1 exOverSpot (by simp [exOverSpot])

/-- C9: when the cube list has emptied on a movement tick, the wave counter
advances; below the per-level limit the same level's wave is regenerated,
at the limit the level increments, the counter resets and the new level's
wave of cols * min(3 + level, 14) cubes spawns. -/
theorem claim_C9 (s : GameState) (r : ℕ → ℚ)
    (h1 : moveInterval ≤ s.moveTimer + 1) (h2 : survivors s = []) :
    (s.currentWave + 1 < wavesPerLevel →
      (updateCubes s r).currentWave = s.currentWave + 1 ∧
      (updateCubes s r).level = s.level ∧
      (updateCubes s r).cubes.length = s.cols * min (3 + s.level) 14) ∧
    (¬ s.currentWave + 1 < wavesPerLevel →
      (updateCubes s r).currentWave = 0 ∧
      (updateCubes s r).level = s.level + 1 ∧
      (updateCubes s r).cubes.length = s.cols * min (3 + (s.level + 1)) 14) := by
  rw [updateCubes_empty s r h1 h2]
  constructor
  · intro h3
    rw [if_pos h3]
    exact ⟨(generateWave_frame _ r).2.2.2.2.2.2.2.2.2.2, (generateWave_frame _ r).2.2.1,
      generateWave_len _ r⟩
  · intro h3
    rw [if_neg h3]
    unfold startLevel
    exact ⟨(generateWave_frame _ r).2.2.2.2.2.2.2.2.2.2, (generateWave_frame _ r).2.2.1,
      generateWave_len _ r⟩

/-- Witness for C9 at a concrete state one frame before the tick that
finds its wave empty. -/
theorem claim_C9_witness :
    (updateCubes exWaveEmpty drawsZero).currentWave = exWaveEmpty.currentWave + 1 ∧
    (updateCubes exWaveEmpty drawsZero).level = exWaveEmpty.level ∧
    (updateCubes exWaveEmpty drawsZero).cubes.length
      = exWaveEmpty.cols * min (3 + exWaveEmpty.level) 14 :=
  (claim_C9 exWaveEmpty drawsZero
      (by norm_num [moveInterval, exWaveEmpty, exMark]) rfl).1
    (by norm_num [wavesPerLevel, exWaveEmpty, exMark])

/-- C10: toggleMark and triggerAllAdvantageSpots ignore the game-over flag
(the same transition happens with the flag forced on), and in concrete
game-over states they still move the score, the rows, the cube list and
the mark and area state. -/
theorem claim_C10 :
    (∀ s : GameState,
      toggleMark { s with isGameOver := true } = { toggleMark s with isGameOver := true }) ∧
    (∀ s : GameState,
      triggerAllAdvantageSpots { s with isGameOver := true }
        = { triggerAllAdvantageSpots s with isGameOver := true }) ∧
    (exOverMark.isGameOver = true ∧
      (toggleMark exOverMark).score = exOverMark.score - 1000 ∧
      (toggleMark exOverMark).rows = exOverMark.rows - 1 ∧
      (toggleMark exOverMark).cubes = [] ∧
      (toggleMark exOverMark).markedCells = []) ∧
    (exOverSpot.isGameOver = true ∧
      (triggerAllAdvantageSpots exOverSpot).score = exOverSpot.score + 200 ∧
      (triggerAllAdvantageSpots exOverSpot).advantageSpots = [] ∧
      (triggerAllAdvantageSpots exOverSpot).cubes = []) := by
  have ha := toggleMark_activate exOverMark (1/2, 5) [] rfl
  have hf : fMark exOverMark (1/2, 5) = 1 := by
    norm_num [fMark, markKey, exOverMark, exMark]
  have hn : nMark exOverMark (1/2, 5) = 0 := by
    norm_num [nMark, markKey, exOverMark, exMark]
  have hsp : exOverSpot.advantageSpots = [((1 : ℚ)/2, (5 : ℚ))] := rfl
  have he : triggerAllAdvantageSpots exOverSpot = triggerSpot exOverSpot ((1 : ℚ)/2, (5 : ℚ)) := by
    rw [triggerAll_of_ne exOverSpot (by simp [exOverSpot]), hsp]
    rw [List.foldl_cons, List.foldl_nil]
  have hts := triggerSpot_spec exOverSpot ((1 : ℚ)/2, (5 : ℚ))
  have hnc : nCheb exOverSpot ((1 : ℚ)/2, (5 : ℚ)) = 1 := by
    norm_num [nCheb, chebHit, cellQ, jsRound, exOverSpot, List.filter_cons, abs_le,
      normal_ne_forbidden]
  have hfc : fCheb exOverSpot ((1 : ℚ)/2, (5 : ℚ)) = 0 := by
    norm_num [fCheb, chebHit, cellQ, jsRound, exOverSpot, List.filter_cons, abs_le,
      normal_ne_forbidden]
  refine ⟨toggleMark_goTrue, triggerAll_goTrue, ⟨rfl, ?_, ?_, ?_, ha.2.2.2.1⟩,
    ⟨rfl, ?_, triggerAll_spots exOverSpot, ?_⟩⟩
  · rw [ha.1, hf, hn]
    norm_num
  · rw [ha.2.1, hf]
    norm_num
  · rw [ha.2.2.1]
    norm_num [exOverMark, exMark, markKey, List.filter]
  · rw [he, hts.1, hnc, hfc]
    norm_num
  · rw [he, hts.2.2.1]
    norm_num [exOverSpot, chebHit, cellQ, jsRound, List.filter_cons, abs_le]

/-- Witness for C10: the mark toggle transition of a concrete state is the
same with the game-over flag forced on. -/
theorem claim_C10_witness :
    toggleMark { exMark with isGameOver := true }
      = { toggleMark exMark with isGameOver := true } :=
  claim_C10.1 exMark

end IQ

